import Mathlib

/-!
Shallow embedding of `polyhedral_volume.py` (class `PolyhedralVolume`).

Coordinates (numpy arrays of 3 floats) are modelled as `V3 := Fin 3 → ℚ`,
with componentwise addition/subtraction as in numpy.  Python exceptions are
modelled by `Except PyErr`: `ValueError(msg)` and `IndexError`.  Python list
(and numpy 1-d array) indexing `l[i]`, which accepts negative indices by
wrapping from the end, is `pyGet`; item assignment is `pySet`.  The pymatgen
`Structure` is modelled by the two pieces of data the code reads or writes:
its Cartesian coordinate table `cart_coords` and its site list (of which the
code only touches the fractional coordinates `abc`), both indexed by site.

Methods that only read `self.struct` still return the (unchanged) structure
component explicitly, so that frame properties are statable; the one mutating
method `_trans_periodic_coords` returns the updated structure.
-/

/-- A 3-component coordinate vector (numpy array of length 3). -/
abbrev V3 : Type := Fin 3 → ℚ

/-- Build a `V3` from its three components. -/
def mkV3 (x y z : ℚ) : V3 := ![x, y, z]

/-- Python exceptions raised by the embedded code. -/
inductive PyErr where
  | valueError (msg : String) : PyErr
  | indexError : PyErr
deriving DecidableEq

/-- Python list / numpy array indexing `l[i]`: negative indices wrap from the
end; an index out of the range `-len l ≤ i < len l` raises `IndexError`. -/
def pyGet {α : Type} (l : List α) (i : Int) : Except PyErr α :=
  let j : Int := if i < 0 then i + l.length else i
  if 0 ≤ j then
    match l.get? j.toNat with
    | some a => .ok a
    | none => .error .indexError
  else .error .indexError

/-- Python list item assignment `l[i] = a`, with the same indexing rules. -/
def pySet {α : Type} (l : List α) (i : Int) (a : α) : Except PyErr (List α) :=
  let j : Int := if i < 0 then i + l.length else i
  if 0 ≤ j ∧ j.toNat < l.length then
    .ok (l.set j.toNat a)
  else .error .indexError

/-- The pymatgen `Structure`, restricted to what the code accesses:
`cart_coords[site]` (Cartesian coordinates) and `sites[site]`, of which only
the fractional coordinates `abc` are read and written. -/
structure Structure where
  cart_coords : List V3
  sites : List V3

/-- Model of `numpy.linalg.det` of the 3×3 matrix with rows `r1`, `r2`, `r3`
(cofactor expansion along the first row). -/
def det3 (r1 r2 r3 : V3) : ℚ :=
  r1 0 * (r2 1 * r3 2 - r2 2 * r3 1)
    - r1 1 * (r2 0 * r3 2 - r2 2 * r3 0)
    + r1 2 * (r2 0 * r3 1 - r2 1 * r3 0)

/-- The `ValueError` message of `PolyhedralVolume.tetrahedron`. -/
def tetraMsg : String := "Tetrahedral cluster consists of only four atoms."

/-- The `ValueError` message of `PolyhedralVolume.octahedron`. -/
def octMsg : String := "Octahedral cluster consists of only six atoms."

/-- The `ValueError` message of `PolyhedralVolume.cubic`. -/
def cubicMsg : String := "Cubic cluster consists of only eight atoms."

/-- Embeds `PolyhedralVolume.tetrahedron` (lines 35-64): raise
`ValueError` unless exactly 4 coordinates, else `|det [ab, ac, ad]| / 6`. -/
def tetrahedron (coords : List V3) : Except PyErr ℚ :=
  match coords with
  | [a, b, c, d] =>
      let ab := b - a
      let ac := c - a
      let ad := d - a
      .ok (|det3 ab ac ad| / 6)
  | _ => .error (.valueError tetraMsg)

/-- The coordinate-resolution loop of `octahedron`/`cubic`
(`for site in sites: coords.append(self.struct.cart_coords[site])`),
also reused for looking up the vertices of one triangle of the
triangulation map inside the local `coords` list. -/
def resolveSites (table : List V3) : List Int → Except PyErr (List V3)
  | [] => .ok []
  | s :: rest => do
      let c ← pyGet table s
      let cs ← resolveSites table rest
      pure (c :: cs)

/-- Embeds `PolyhedralVolume._calc_center_of_gravity` (lines 148-169):
`numpy.zeros(3)`, add every coordinate, divide by the length. -/
def calc_center_of_gravity (coords : List V3) : V3 :=
  let coords_sum : V3 := coords.foldl (fun s c => s + c) (mkV3 0 0 0)
  fun i => coords_sum i / (coords.length : ℚ)

/-- The accumulation loop shared by `octahedron` and `cubic`
(`volume = 0; for triangle in sites_position: ... volume += tetrahedron(...)`):
for each triangle of the map, look its vertex positions up in `coords`,
prepend the center of gravity, and add the tetrahedron volume. -/
def sumTriangles (coords : List V3) (gravity : V3) :
    List (List Int) → Except PyErr ℚ
  | [] => .ok 0
  | triangle :: rest => do
      let cs ← resolveSites coords triangle
      let t ← tetrahedron (gravity :: cs)
      let v ← sumTriangles coords gravity rest
      pure (t + v)

/-- Embeds `PolyhedralVolume.octahedron` (lines 66-105).  The structure component of
the result is the calculator's structure after the call. -/
def octahedron (struct : Structure) (sites : List Int)
    (sites_position : List (List Int)) : Except PyErr ℚ × Structure :=
  (if sites.length = 6 then
      match resolveSites struct.cart_coords sites with
      | .error e => .error e
      | .ok coords =>
          let gravity := calc_center_of_gravity coords
          sumTriangles coords gravity sites_position
    else .error (.valueError octMsg),
   struct)

/-- Embeds `PolyhedralVolume.cubic` (lines 107-146).  Identical to `octahedron`
except for the required size 8 and the error message. -/
def cubic (struct : Structure) (sites : List Int)
    (sites_position : List (List Int)) : Except PyErr ℚ × Structure :=
  (if sites.length = 8 then
      match resolveSites struct.cart_coords sites with
      | .error e => .error e
      | .ok coords =>
          let gravity := calc_center_of_gravity coords
          sumTriangles coords gravity sites_position
    else .error (.valueError cubicMsg),
   struct)

/-- One component of the wrapping step of `_trans_periodic_coords`:
subtract 1 if the component exceeds 0.5, add 1 if it is below -0.5
(reading the dangling `else` on line 189 as `else: pass`). -/
def wrapComp (r : ℚ) : ℚ :=
  if 1/2 < r then r - 1
  else if r < -(1/2) then r + 1
  else r

/-- Embeds `PolyhedralVolume._trans_periodic_coords` (lines 171-191): for each listed
site, read its fractional coordinates, shift every component once towards the
canonical range, and store the modified site back into the structure. -/
def trans_periodic_coords (struct : Structure) (sites : List Int) :
    Except PyErr Structure :=
  match sites with
  | [] => .ok struct
  | site :: rest => do
      let abc ← pyGet struct.sites site
      let newSites ← pySet struct.sites site (fun i => wrapComp (abc i))
      trans_periodic_coords { struct with sites := newSites } rest

/-- The tetrahedron-volume formula of the spec (§4.1), as a function of the
four vertices: `|det([b-a, c-a, d-a])| / 6`. -/
def tetraVol (a b c d : V3) : ℚ :=
  |det3 (b - a) (c - a) (d - a)| / 6

/-- Regular-octahedron fixture: vertices at (±1,0,0), (0,±1,0), (0,0,±1). -/
def OctS : Structure :=
  ⟨[mkV3 1 0 0, mkV3 (-1) 0 0, mkV3 0 1 0, mkV3 0 (-1) 0, mkV3 0 0 1,
    mkV3 0 0 (-1)], []⟩

/-- Unit-cube fixture: the eight vertices of the cube with corners 0 and
(1,1,1). -/
def CubeS : Structure :=
  ⟨[mkV3 0 0 0, mkV3 1 0 0, mkV3 0 1 0, mkV3 1 1 0, mkV3 0 0 1, mkV3 1 0 1,
    mkV3 0 1 1, mkV3 1 1 1], []⟩

/-- The vertex table of `OctS`, as a function on vertex positions. -/
def OctP : Fin 6 → V3 :=
  ![mkV3 1 0 0, mkV3 (-1) 0 0, mkV3 0 1 0, mkV3 0 (-1) 0, mkV3 0 0 1,
    mkV3 0 0 (-1)]

/-- The vertex table of `CubeS`, as a function on vertex positions. -/
def CubeP : Fin 8 → V3 :=
  ![mkV3 0 0 0, mkV3 1 0 0, mkV3 0 1 0, mkV3 1 1 0, mkV3 0 0 1, mkV3 1 0 1,
    mkV3 0 1 1, mkV3 1 1 1]

/-- Position triples of the 8 triangular faces of the `OctS` octahedron. -/
def octFaces : List (Fin 6 × Fin 6 × Fin 6) :=
  [(4, 0, 2), (4, 2, 1), (4, 1, 3), (4, 3, 0),
   (5, 0, 2), (5, 2, 1), (5, 1, 3), (5, 3, 0)]

/-- Position triples of the 12 triangular faces of the `CubeS` cube
(6 quadrilateral faces split into 2 triangles each). -/
def cubeFaces : List (Fin 8 × Fin 8 × Fin 8) :=
  [(0, 1, 3), (0, 3, 2), (4, 5, 7), (4, 7, 6), (0, 1, 5), (0, 5, 4),
   (2, 3, 7), (2, 7, 6), (0, 2, 6), (0, 6, 4), (1, 3, 7), (1, 7, 5)]

/-- Turn a position triple into a triangulation-map entry. -/
def finTriple {n : ℕ} (t : Fin n × Fin n × Fin n) : List Int :=
  [(t.1.val : Int), (t.2.1.val : Int), (t.2.2.val : Int)]

/-- Fixture for `_trans_periodic_coords`: a single site whose fractional
coordinates are (1.7, 0, 0). -/
def S9 : Structure := ⟨[], [mkV3 (17/10) 0 0]⟩

theorem bind_ok_eq {α β : Type} (a : α) (f : α → Except PyErr β) :
    (Except.ok a >>= f) = f a := rfl

theorem bind_error_eq {α β : Type} (e : PyErr) (f : α → Except PyErr β) :
    ((Except.error e : Except PyErr α) >>= f) = .error e := rfl

theorem tetrahedron_four (a b c d : V3) :
    tetrahedron [a, b, c, d] = .ok (tetraVol a b c d) := rfl

theorem tetrahedron_not_four {l : List V3} (h : l.length ≠ 4) :
    tetrahedron l = .error (.valueError tetraMsg) := by
  rcases l with _ | ⟨a, _ | ⟨b, _ | ⟨c, _ | ⟨d, _ | ⟨e, t⟩⟩⟩⟩⟩
  · rfl
  · rfl
  · rfl
  · rfl
  · simp at h
  · rfl

theorem tetrahedron_error_msg {l : List V3} {e : PyErr}
    (h : tetrahedron l = .error e) : e = .valueError tetraMsg := by
  rcases l with _ | ⟨a, _ | ⟨b, _ | ⟨c, _ | ⟨d, _ | ⟨x, t⟩⟩⟩⟩⟩ <;>
    simp [tetrahedron] at h <;> exact h.symm

theorem tetraVol_nonneg (a b c d : V3) : 0 ≤ tetraVol a b c d := by
  unfold tetraVol
  positivity

theorem tetrahedron_ok_nonneg {l : List V3} {v : ℚ}
    (h : tetrahedron l = .ok v) : 0 ≤ v := by
  rcases l with _ | ⟨a, _ | ⟨b, _ | ⟨c, _ | ⟨d, _ | ⟨x, t⟩⟩⟩⟩⟩ <;>
    simp [tetrahedron] at h
  exact h ▸ tetraVol_nonneg a b c d

theorem pyGet_error_msg {α : Type} {l : List α} {i : Int} {e : PyErr}
    (h : pyGet l i = .error e) : e = .indexError := by
  simp only [pyGet] at h
  split at h <;> split at h
  all_goals try split at h
  all_goals simp at h
  all_goals exact h.symm

theorem pyGet_coe_lt {α : Type} (l : List α) (n : ℕ) (h : n < l.length) :
    pyGet l (n : Int) = .ok (l.get ⟨n, h⟩) := by
  simp only [pyGet]
  rw [if_neg (by omega : ¬ ((n : Int) < 0)),
    if_pos (by omega : (0 : Int) ≤ (n : Int)), Int.toNat_natCast,
    List.get?_eq_get h]

theorem pyGet_out_of_range {α : Type} (l : List α) (i : Int)
    (h : i < -(l.length : Int) ∨ (l.length : Int) ≤ i) :
    pyGet l i = .error .indexError := by
  simp only [pyGet]
  by_cases hi : i < 0
  · rw [if_pos hi, if_neg (by omega : ¬ (0 : Int) ≤ i + l.length)]
  · rw [if_neg hi, if_pos (by omega : (0 : Int) ≤ i),
      List.get?_eq_none.mpr (by omega : l.length ≤ i.toNat)]

theorem pyGet_in_range {α : Type} (l : List α) (i : Int)
    (h1 : -(l.length : Int) ≤ i) (h2 : i < (l.length : Int)) :
    ∃ a, pyGet l i = .ok a := by
  by_cases hi : i < 0
  · refine ⟨l.get ⟨(i + l.length).toNat, by omega⟩, ?_⟩
    simp only [pyGet]
    rw [if_pos hi, if_pos (by omega : (0:Int) ≤ i + l.length),
      List.get?_eq_get (by omega : (i + (l.length:Int)).toNat < l.length)]
  · refine ⟨l.get ⟨i.toNat, by omega⟩, ?_⟩
    simp only [pyGet]
    rw [if_neg hi, if_pos (by omega : (0:Int) ≤ i),
      List.get?_eq_get (by omega : i.toNat < l.length)]

theorem resolveSites_cons (table : List V3) (s : Int) (rest : List Int) :
    resolveSites table (s :: rest) =
      (pyGet table s >>= fun c =>
        resolveSites table rest >>= fun cs => pure (c :: cs)) := rfl

theorem resolveSites_error_msg {table : List V3} {l : List Int} {e : PyErr}
    (h : resolveSites table l = .error e) : e = .indexError := by
  induction l with
  | nil => exact Except.noConfusion h
  | cons s rest ih =>
    rw [resolveSites_cons] at h
    cases hg : pyGet table s with
    | error eg =>
      rw [hg, bind_error_eq] at h
      injection h with h2
      exact pyGet_error_msg (h2 ▸ hg)
    | ok c =>
      rw [hg, bind_ok_eq] at h
      cases hr : resolveSites table rest with
      | error er =>
        rw [hr, bind_error_eq] at h
        injection h with h2
        exact ih (h2 ▸ hr)
      | ok cs =>
        rw [hr, bind_ok_eq] at h
        exact Except.noConfusion h

theorem resolveSites_ok_length {table : List V3} {l : List Int} {cs : List V3}
    (h : resolveSites table l = .ok cs) : cs.length = l.length := by
  induction l generalizing cs with
  | nil =>
    injection h with h2
    simp [← h2]
  | cons s rest ih =>
    rw [resolveSites_cons] at h
    cases hg : pyGet table s with
    | error eg => rw [hg, bind_error_eq] at h; exact Except.noConfusion h
    | ok c =>
      rw [hg, bind_ok_eq] at h
      cases hr : resolveSites table rest with
      | error er => rw [hr, bind_error_eq] at h; exact Except.noConfusion h
      | ok cs2 =>
        rw [hr, bind_ok_eq] at h
        injection h with h2
        simp [← h2, ih hr]

theorem resolveSites_all_in_range {table : List V3} {l : List Int}
    (h : ∀ i ∈ l, -(table.length : Int) ≤ i ∧ i < (table.length : Int)) :
    ∃ cs, resolveSites table l = .ok cs := by
  induction l with
  | nil => exact ⟨[], rfl⟩
  | cons s rest ih =>
    obtain ⟨c, hc⟩ := pyGet_in_range table s (h s (by simp)).1 (h s (by simp)).2
    obtain ⟨cs, hcs⟩ := ih (fun i hi => h i (by simp [hi]))
    exact ⟨c :: cs, by rw [resolveSites_cons, hc, bind_ok_eq, hcs, bind_ok_eq]; rfl⟩

theorem resolveSites_has_bad {table : List V3} {l : List Int}
    (h : ∃ i ∈ l, i < -(table.length : Int) ∨ (table.length : Int) ≤ i) :
    resolveSites table l = .error .indexError := by
  induction l with
  | nil => simp at h
  | cons s rest ih =>
    rw [resolveSites_cons]
    by_cases hs : s < -(table.length : Int) ∨ (table.length : Int) ≤ s
    · rw [pyGet_out_of_range table s hs, bind_error_eq]
    · cases hg : pyGet table s with
      | error eg => rw [bind_error_eq, pyGet_error_msg hg]
      | ok c =>
        rw [bind_ok_eq]
        obtain ⟨i, hi, hout⟩ := h
        rcases List.mem_cons.mp hi with rfl | hi
        · exact absurd hout hs
        · rw [ih ⟨i, hi, hout⟩, bind_error_eq]

theorem resolveSites_nil (table : List V3) : resolveSites table [] = .ok [] := rfl

theorem pure_eq_ok {α : Type} (a : α) : (pure a : Except PyErr α) = .ok a := rfl

theorem sumTriangles_nil (coords : List V3) (g : V3) :
    sumTriangles coords g [] = .ok 0 := rfl

theorem sumTriangles_cons (coords : List V3) (g : V3) (triangle : List Int)
    (rest : List (List Int)) :
    sumTriangles coords g (triangle :: rest) =
      (resolveSites coords triangle >>= fun cs =>
        tetrahedron (g :: cs) >>= fun t =>
          sumTriangles coords g rest >>= fun v => pure (t + v)) := rfl

theorem sumTriangles_error_msg {coords : List V3} {g : V3}
    {mp : List (List Int)} {e : PyErr}
    (h : sumTriangles coords g mp = .error e) :
    e = .indexError ∨ e = .valueError tetraMsg := by
  induction mp with
  | nil => exact Except.noConfusion h
  | cons triangle rest ih =>
    rw [sumTriangles_cons] at h
    cases hr : resolveSites coords triangle with
    | error er =>
      rw [hr, bind_error_eq] at h
      injection h with h2
      exact Or.inl (resolveSites_error_msg (h2 ▸ hr))
    | ok cs =>
      rw [hr, bind_ok_eq] at h
      cases ht : tetrahedron (g :: cs) with
      | error et =>
        rw [ht, bind_error_eq] at h
        injection h with h2
        exact Or.inr (tetrahedron_error_msg (h2 ▸ ht))
      | ok t =>
        rw [ht, bind_ok_eq] at h
        cases hs : sumTriangles coords g rest with
        | error es =>
          rw [hs, bind_error_eq] at h
          injection h with h2
          exact ih (h2 ▸ hs)
        | ok v =>
          rw [hs, bind_ok_eq] at h
          exact Except.noConfusion h

theorem sumTriangles_ok_nonneg {coords : List V3} {g : V3}
    {mp : List (List Int)} {v : ℚ}
    (h : sumTriangles coords g mp = .ok v) : 0 ≤ v := by
  induction mp generalizing v with
  | nil =>
    injection h with h2
    rw [← h2]
  | cons triangle rest ih =>
    rw [sumTriangles_cons] at h
    cases hr : resolveSites coords triangle with
    | error er => rw [hr, bind_error_eq] at h; exact Except.noConfusion h
    | ok cs =>
      rw [hr, bind_ok_eq] at h
      cases ht : tetrahedron (g :: cs) with
      | error et => rw [ht, bind_error_eq] at h; exact Except.noConfusion h
      | ok t =>
        rw [ht, bind_ok_eq] at h
        cases hs : sumTriangles coords g rest with
        | error es => rw [hs, bind_error_eq] at h; exact Except.noConfusion h
        | ok v2 =>
          rw [hs, bind_ok_eq] at h
          injection h with h2
          rw [← h2]
          exact add_nonneg (tetrahedron_ok_nonneg ht) (ih hs)

theorem sumTriangles_bad_triangle {coords : List V3} {g : V3}
    {mp : List (List Int)}
    (hall : ∀ t ∈ mp, t.length = 3)
    (hbad : ∃ t ∈ mp, ∃ i ∈ t,
      i < -(coords.length : Int) ∨ (coords.length : Int) ≤ i) :
    sumTriangles coords g mp = .error .indexError := by
  induction mp with
  | nil => simp at hbad
  | cons triangle rest ih =>
    rw [sumTriangles_cons]
    by_cases htr : ∃ i ∈ triangle,
        i < -(coords.length : Int) ∨ (coords.length : Int) ≤ i
    · rw [resolveSites_has_bad htr, bind_error_eq]
    · push_neg at htr
      obtain ⟨cs, hcs⟩ := @resolveSites_all_in_range coords triangle
        (fun i hi => ⟨by have := htr i hi; omega, by have := htr i hi; omega⟩)
      rw [hcs, bind_ok_eq]
      have hlen : cs.length = 3 :=
        (resolveSites_ok_length hcs).trans (hall triangle (by simp))
      rcases cs with _ | ⟨x, _ | ⟨y, _ | ⟨z, _ | ⟨w, tt⟩⟩⟩⟩ <;> simp at hlen
      rw [show g :: [x, y, z] = [g, x, y, z] from rfl, tetrahedron_four,
        bind_ok_eq]
      obtain ⟨t0, ht0, hbad0⟩ := hbad
      rcases List.mem_cons.mp ht0 with rfl | ht0
      · refine absurd hbad0 ?_
        push_neg
        exact htr
      · rw [ih (fun t ht => hall t (by simp [ht])) ⟨t0, ht0, hbad0⟩,
          bind_error_eq]

theorem det3_eq_det (r1 r2 r3 : V3) :
    (Matrix.of ![r1, r2, r3]).det = det3 r1 r2 r3 := by
  simp [Matrix.det_fin_three, det3]
  ring

theorem det3_sub_swap01 (a b c d : V3) :
    det3 (a - b) (c - b) (d - b) = -det3 (b - a) (c - a) (d - a) := by
  simp only [det3, Pi.sub_apply]
  ring

theorem det3_sub_swap12 (a b c d : V3) :
    det3 (c - a) (b - a) (d - a) = -det3 (b - a) (c - a) (d - a) := by
  simp only [det3, Pi.sub_apply]
  ring

theorem det3_sub_swap23 (a b c d : V3) :
    det3 (b - a) (d - a) (c - a) = -det3 (b - a) (c - a) (d - a) := by
  simp only [det3, Pi.sub_apply]
  ring

theorem tetraVol_swap01 (a b c d : V3) : tetraVol b a c d = tetraVol a b c d := by
  unfold tetraVol
  rw [det3_sub_swap01, abs_neg]

theorem tetraVol_swap12 (a b c d : V3) : tetraVol a c b d = tetraVol a b c d := by
  unfold tetraVol
  rw [det3_sub_swap12, abs_neg]

theorem tetraVol_swap23 (a b c d : V3) : tetraVol a b d c = tetraVol a b c d := by
  unfold tetraVol
  rw [det3_sub_swap23, abs_neg]

theorem pyGet_ofFn {n : ℕ} (p : Fin n → V3) (i : Fin n) :
    pyGet (List.ofFn p) ((i.val : ℕ) : Int) = .ok (p i) := by
  rw [pyGet_coe_lt (List.ofFn p) i.val (by simp [List.length_ofFn])]
  rw [List.get_ofFn]
  congr 1

theorem resolveSites_finTriple {n : ℕ} (p : Fin n → V3)
    (t : Fin n × Fin n × Fin n) :
    resolveSites (List.ofFn p) (finTriple t) = .ok [p t.1, p t.2.1, p t.2.2] := by
  simp only [finTriple, resolveSites_cons, resolveSites_nil, pyGet_ofFn,
    bind_ok_eq, pure_eq_ok]

theorem sumTriangles_ofFn {n : ℕ} (p : Fin n → V3) (g : V3)
    (tris : List (Fin n × Fin n × Fin n)) :
    sumTriangles (List.ofFn p) g (tris.map finTriple) =
      .ok ((tris.map (fun t => tetraVol g (p t.1) (p t.2.1) (p t.2.2))).sum) := by
  induction tris with
  | nil => simp [sumTriangles_nil]
  | cons t rest ih =>
    rw [List.map_cons, sumTriangles_cons, resolveSites_finTriple, bind_ok_eq]
    rw [show g :: [p t.1, p t.2.1, p t.2.2] = [g, p t.1, p t.2.1, p t.2.2]
      from rfl]
    rw [tetrahedron_four, bind_ok_eq, ih, bind_ok_eq, pure_eq_ok]
    rw [List.map_cons, List.sum_cons]

theorem foldl_add_apply (l : List V3) (v : V3) (i : Fin 3) :
    (l.foldl (fun s c => s + c) v) i = v i + (l.map (fun c => c i)).sum := by
  induction l generalizing v with
  | nil => simp
  | cons c rest ih =>
    rw [List.foldl_cons, ih (v + c), List.map_cons, List.sum_cons, Pi.add_apply]
    ring

theorem mkV3_zero_apply (i : Fin 3) : mkV3 0 0 0 i = 0 := by
  fin_cases i <;> rfl

theorem tetrahedron_append_perm (pre : List V3) {l1 l2 : List V3}
    (h : l1.Perm l2) : tetrahedron (pre ++ l1) = tetrahedron (pre ++ l2) := by
  induction h generalizing pre with
  | nil => rfl
  | @cons x m1 m2 hm ih =>
    rw [show pre ++ x :: m1 = (pre ++ [x]) ++ m1 by simp,
      show pre ++ x :: m2 = (pre ++ [x]) ++ m2 by simp]
    exact ih (pre ++ [x])
  | @swap x y m =>
    by_cases hlen : (pre ++ y :: x :: m).length = 4
    · have hpl : pre.length + m.length = 2 := by
        simp at hlen
        omega
      rcases pre with _ | ⟨a, _ | ⟨b, _ | ⟨c, pr⟩⟩⟩
      · rcases m with _ | ⟨u, _ | ⟨v, _ | ⟨w, tl⟩⟩⟩ <;> (simp at hpl; try omega)
        show tetrahedron [y, x, u, v] = tetrahedron [x, y, u, v]
        rw [tetrahedron_four, tetrahedron_four, tetraVol_swap01]
      · rcases m with _ | ⟨u, _ | ⟨v, tl⟩⟩ <;> (simp at hpl; try omega)
        show tetrahedron [a, y, x, u] = tetrahedron [a, x, y, u]
        rw [tetrahedron_four, tetrahedron_four, tetraVol_swap12]
      · rcases m with _ | ⟨u, tl⟩ <;> (simp at hpl; try omega)
        show tetrahedron [a, b, y, x] = tetrahedron [a, b, x, y]
        rw [tetrahedron_four, tetrahedron_four, tetraVol_swap23]
      · exact absurd hpl (by simp; omega)
    · have e : (pre ++ y :: x :: m).length = (pre ++ x :: y :: m).length := by
        simp
      rw [tetrahedron_not_four hlen, tetrahedron_not_four (e ▸ hlen)]
  | trans h1 h2 ih1 ih2 => exact (ih1 pre).trans (ih2 pre)

theorem octahedron_fst_not_six {s : Structure} {sites : List Int}
    {mp : List (List Int)} (hlen : sites.length ≠ 6) :
    (octahedron s sites mp).1 = .error (.valueError octMsg) := by
  dsimp only [octahedron]
  rw [if_neg hlen]

theorem octahedron_fst_ok {s : Structure} {sites : List Int}
    {mp : List (List Int)} {v : ℚ} (h : (octahedron s sites mp).1 = .ok v) :
    ∃ coords, sites.length = 6 ∧
      resolveSites s.cart_coords sites = .ok coords ∧
      sumTriangles coords (calc_center_of_gravity coords) mp = .ok v := by
  dsimp only [octahedron] at h
  by_cases hlen : sites.length = 6
  · rw [if_pos hlen] at h
    cases hres : resolveSites s.cart_coords sites with
    | error e => rw [hres] at h; exact Except.noConfusion h
    | ok coords =>
      rw [hres] at h
      exact ⟨coords, hlen, rfl, h⟩
  · rw [if_neg hlen] at h
    exact Except.noConfusion h

theorem strings_distinct : octMsg ≠ tetraMsg ∧ cubicMsg ≠ tetraMsg := by
  constructor <;> decide

theorem octahedron_six_not_sizeerr {s : Structure} {sites : List Int}
    {mp : List (List Int)} (hlen : sites.length = 6) :
    (octahedron s sites mp).1 ≠ .error (.valueError octMsg) := by
  intro h
  dsimp only [octahedron] at h
  rw [if_pos hlen] at h
  cases hres : resolveSites s.cart_coords sites with
  | error e =>
    rw [hres] at h
    injection h with h2
    have := resolveSites_error_msg hres
    rw [this] at h2
    exact PyErr.noConfusion h2
  | ok coords =>
    rw [hres] at h
    rcases sumTriangles_error_msg h with h2 | h2
    · exact PyErr.noConfusion h2
    · injection h2 with h3
      exact strings_distinct.1 h3

theorem cubic_fst_not_eight {s : Structure} {sites : List Int}
    {mp : List (List Int)} (hlen : sites.length ≠ 8) :
    (cubic s sites mp).1 = .error (.valueError cubicMsg) := by
  dsimp only [cubic]
  rw [if_neg hlen]

theorem cubic_fst_ok {s : Structure} {sites : List Int}
    {mp : List (List Int)} {v : ℚ} (h : (cubic s sites mp).1 = .ok v) :
    ∃ coords, sites.length = 8 ∧
      resolveSites s.cart_coords sites = .ok coords ∧
      sumTriangles coords (calc_center_of_gravity coords) mp = .ok v := by
  dsimp only [cubic] at h
  by_cases hlen : sites.length = 8
  · rw [if_pos hlen] at h
    cases hres : resolveSites s.cart_coords sites with
    | error e => rw [hres] at h; exact Except.noConfusion h
    | ok coords =>
      rw [hres] at h
      exact ⟨coords, hlen, rfl, h⟩
  · rw [if_neg hlen] at h
    exact Except.noConfusion h

theorem cubic_eight_not_sizeerr {s : Structure} {sites : List Int}
    {mp : List (List Int)} (hlen : sites.length = 8) :
    (cubic s sites mp).1 ≠ .error (.valueError cubicMsg) := by
  intro h
  dsimp only [cubic] at h
  rw [if_pos hlen] at h
  cases hres : resolveSites s.cart_coords sites with
  | error e =>
    rw [hres] at h
    injection h with h2
    have := resolveSites_error_msg hres
    rw [this] at h2
    exact PyErr.noConfusion h2
  | ok coords =>
    rw [hres] at h
    rcases sumTriangles_error_msg h with h2 | h2
    · exact PyErr.noConfusion h2
    · injection h2 with h3
      exact strings_distinct.2 h3

theorem octahedron_ok_of_six {s : Structure} {sites : List Int}
    {coords : List V3} (mp : List (List Int)) (hlen : sites.length = 6)
    (hres : resolveSites s.cart_coords sites = .ok coords) :
    (octahedron s sites mp).1 =
      sumTriangles coords (calc_center_of_gravity coords) mp := by
  dsimp only [octahedron]
  rw [if_pos hlen, hres]

theorem cubic_ok_of_eight {s : Structure} {sites : List Int}
    {coords : List V3} (mp : List (List Int)) (hlen : sites.length = 8)
    (hres : resolveSites s.cart_coords sites = .ok coords) :
    (cubic s sites mp).1 =
      sumTriangles coords (calc_center_of_gravity coords) mp := by
  dsimp only [cubic]
  rw [if_pos hlen, hres]

/-- C1: for every list of exactly 4 coordinates (a, b, c, d), `tetrahedron`
returns `|det([b-a, c-a, d-a])| / 6`, the absolute determinant of the matrix
whose rows are the three edge vectors from the first vertex, divided by 6. -/
theorem claim1_tetrahedron_det (a b c d : V3) :
    tetrahedron [a, b, c, d] =
      .ok (|(Matrix.of ![b - a, c - a, d - a]).det| / 6) := by
  rw [tetrahedron_four, det3_eq_det]
  rfl

/-- C6: `tetrahedron` applied to any permutation of a list of 4 coordinates
returns the same value as on the original list. -/
theorem claim6_perm_invariant {l1 l2 : List V3} (h4 : l1.length = 4)
    (hp : l1.Perm l2) : tetrahedron l2 = tetrahedron l1 :=
  (tetrahedron_append_perm [] hp).symm

/-- Witness for C6 at a concrete tetrahedron and the transposition of its
first two vertices. -/
theorem claim6_perm_invariant_witness :
    tetrahedron [mkV3 0 0 0, mkV3 1 2 3, mkV3 2 0 1, mkV3 0 5 0] =
      tetrahedron [mkV3 1 2 3, mkV3 0 0 0, mkV3 2 0 1, mkV3 0 5 0] :=
  claim6_perm_invariant rfl
    (List.Perm.swap (mkV3 0 0 0) (mkV3 1 2 3) [mkV3 2 0 1, mkV3 0 5 0])

/-- C7: on a non-empty coordinate list, `_calc_center_of_gravity` returns the
component-wise arithmetic mean. -/
theorem claim7_center_of_gravity_mean (coords : List V3) (h : coords ≠ [])
    (i : Fin 3) :
    calc_center_of_gravity coords i =
      (coords.map (fun c => c i)).sum / (coords.length : ℚ) := by
  simp only [calc_center_of_gravity]
  rw [foldl_add_apply, mkV3_zero_apply, zero_add]

/-- Witness for C7 at two concrete coordinates. -/
theorem claim7_center_of_gravity_mean_witness :
    calc_center_of_gravity [mkV3 1 2 3, mkV3 3 4 5] 0 = 2 := by
  rw [claim7_center_of_gravity_mean [mkV3 1 2 3, mkV3 3 4 5] (by simp) 0]
  norm_num [mkV3]

/-- C8: `octahedron` and `cubic` leave the calculator's structure unchanged
(and `tetrahedron` does not even receive the structure). -/
theorem claim8_structure_unchanged (s : Structure) (sites : List Int)
    (mp : List (List Int)) (sitesc : List Int) (mpc : List (List Int)) :
    (octahedron s sites mp).2 = s ∧ (cubic s sitesc mpc).2 = s :=
  ⟨rfl, rfl⟩

/-- C5: whenever `tetrahedron`, `octahedron` or `cubic` returns a value, the
value is non-negative. -/
theorem claim5_nonneg (coords : List V3) (s : Structure) (sites : List Int)
    (mp : List (List Int)) (sitesc : List Int) (mpc : List (List Int))
    (v1 v2 v3 : ℚ) :
    (tetrahedron coords = .ok v1 → 0 ≤ v1) ∧
    ((octahedron s sites mp).1 = .ok v2 → 0 ≤ v2) ∧
    ((cubic s sitesc mpc).1 = .ok v3 → 0 ≤ v3) := by
  refine ⟨fun h => tetrahedron_ok_nonneg h, fun h => ?_, fun h => ?_⟩
  · obtain ⟨c2, _, _, hsum⟩ := octahedron_fst_ok h
    exact sumTriangles_ok_nonneg hsum
  · obtain ⟨c2, _, _, hsum⟩ := cubic_fst_ok h
    exact sumTriangles_ok_nonneg hsum

/-- Witness for C5: the three operations at concrete inputs. -/
theorem claim5_nonneg_witness :
    (0 : ℚ) ≤ 1/6 ∧ (0 : ℚ) ≤ 0 := by
  constructor
  · exact (claim5_nonneg [mkV3 0 0 0, mkV3 1 0 0, mkV3 0 1 0, mkV3 0 0 1]
      OctS [0, 1, 2, 3, 4, 5] [] [] [] (1/6) 0 0).1
      (by simp [tetrahedron, tetraVol, det3, mkV3])
  · exact (claim5_nonneg [] OctS [0, 1, 2, 3, 4, 5] [] [] [] 0 0 0).2.1
      (by simp [octahedron, OctS, resolveSites, pyGet, sumTriangles,
        bind, Except.bind, pure, Except.pure])

/-- C10: `octahedron` and `cubic` do not check the size of the triangulation
map: with an empty map (and resolvable sites of the right count) they succeed
and return 0. -/
theorem claim10_empty_map_zero (s : Structure) (sites : List Int)
    (sitesc : List Int) (cs csc : List V3) :
    (sites.length = 6 → resolveSites s.cart_coords sites = .ok cs →
      (octahedron s sites []).1 = .ok 0) ∧
    (sitesc.length = 8 → resolveSites s.cart_coords sitesc = .ok csc →
      (cubic s sitesc []).1 = .ok 0) := by
  constructor
  · intro hlen hres
    rw [octahedron_ok_of_six [] hlen hres, sumTriangles_nil]
  · intro hlen hres
    rw [cubic_ok_of_eight [] hlen hres, sumTriangles_nil]

/-- Witness for C10 at the two fixtures. -/
theorem claim10_empty_map_zero_witness :
    (octahedron OctS [0, 1, 2, 3, 4, 5] []).1 = .ok 0 ∧
    (cubic CubeS [0, 1, 2, 3, 4, 5, 6, 7] []).1 = .ok 0 := by
  constructor
  · exact (claim10_empty_map_zero OctS [0, 1, 2, 3, 4, 5] []
      (OctS.cart_coords) []).1 rfl
      (by simp [OctS, resolveSites, pyGet, bind, Except.bind, pure, Except.pure, mkV3])
  · exact (claim10_empty_map_zero CubeS [] [0, 1, 2, 3, 4, 5, 6, 7] []
      (CubeS.cart_coords)).2 rfl
      (by simp [CubeS, resolveSites, pyGet, bind, Except.bind, pure, Except.pure, mkV3])

/-- C2: with the right number of resolvable indices, `octahedron` (resp.
`cubic`) resolves each index through the structure, takes the centroid of the
resolved vertices, and returns the sum over the triangulation map's triples
(i, j, k) of the tetrahedron volume of the centroid and vertices i, j, k. -/
theorem claim2_centroid_fan (s : Structure) (sites : List Int)
    (p6 : Fin 6 → V3) (tris6 : List (Fin 6 × Fin 6 × Fin 6))
    (sitesc : List Int) (p8 : Fin 8 → V3)
    (tris8 : List (Fin 8 × Fin 8 × Fin 8)) :
    (sites.length = 6 →
      resolveSites s.cart_coords sites = .ok (List.ofFn p6) →
      (octahedron s sites (tris6.map finTriple)).1 =
        .ok ((tris6.map (fun t =>
          tetraVol (calc_center_of_gravity (List.ofFn p6))
            (p6 t.1) (p6 t.2.1) (p6 t.2.2))).sum)) ∧
    (sitesc.length = 8 →
      resolveSites s.cart_coords sitesc = .ok (List.ofFn p8) →
      (cubic s sitesc (tris8.map finTriple)).1 =
        .ok ((tris8.map (fun t =>
          tetraVol (calc_center_of_gravity (List.ofFn p8))
            (p8 t.1) (p8 t.2.1) (p8 t.2.2))).sum)) := by
  constructor
  · intro hlen hres
    rw [octahedron_ok_of_six (tris6.map finTriple) hlen hres,
      sumTriangles_ofFn]
  · intro hlen hres
    rw [cubic_ok_of_eight (tris8.map finTriple) hlen hres, sumTriangles_ofFn]

/-- Witness for C2: the regular octahedron and unit cube fixtures with their
full face triangulations. -/
theorem claim2_centroid_fan_witness :
    (octahedron OctS [0, 1, 2, 3, 4, 5] (octFaces.map finTriple)).1 =
      .ok ((octFaces.map (fun t =>
        tetraVol (calc_center_of_gravity (List.ofFn OctP))
          (OctP t.1) (OctP t.2.1) (OctP t.2.2))).sum) ∧
    (cubic CubeS [0, 1, 2, 3, 4, 5, 6, 7] (cubeFaces.map finTriple)).1 =
      .ok ((cubeFaces.map (fun t =>
        tetraVol (calc_center_of_gravity (List.ofFn CubeP))
          (CubeP t.1) (CubeP t.2.1) (CubeP t.2.2))).sum) :=
  ⟨(claim2_centroid_fan OctS [0, 1, 2, 3, 4, 5] OctP octFaces
      [0, 1, 2, 3, 4, 5, 6, 7] CubeP cubeFaces).1 rfl
      (by simp [OctS, OctP, resolveSites, pyGet, bind, Except.bind, pure,
        Except.pure, List.ofFn_succ, mkV3]),
   (claim2_centroid_fan CubeS [0, 1, 2, 3, 4, 5] OctP octFaces
      [0, 1, 2, 3, 4, 5, 6, 7] CubeP cubeFaces).2 rfl
      (by simp [CubeS, CubeP, resolveSites, pyGet, bind, Except.bind, pure,
        Except.pure, List.ofFn_succ, mkV3])⟩

/-- C3: each volume operation raises its InvalidClusterSize `ValueError` if
and only if its vertex/index list length differs from the required topology
size (4/6/8); on the failing side nothing is computed: the result does not
depend on the structure, and the structure is returned unchanged. -/
theorem claim3_cluster_size (coords : List V3) (s s2 : Structure)
    (sites : List Int) (mp : List (List Int)) (sitesc : List Int)
    (mpc : List (List Int)) :
    ((tetrahedron coords = .error (.valueError tetraMsg)) ↔
      coords.length ≠ 4) ∧
    (((octahedron s sites mp).1 = .error (.valueError octMsg)) ↔
      sites.length ≠ 6) ∧
    (((cubic s sitesc mpc).1 = .error (.valueError cubicMsg)) ↔
      sitesc.length ≠ 8) ∧
    (sites.length ≠ 6 →
      (octahedron s sites mp).1 = (octahedron s2 sites mp).1 ∧
      (octahedron s sites mp).2 = s) ∧
    (sitesc.length ≠ 8 →
      (cubic s sitesc mpc).1 = (cubic s2 sitesc mpc).1 ∧
      (cubic s sitesc mpc).2 = s) := by
  refine ⟨⟨fun h hc => ?_, tetrahedron_not_four⟩,
    ⟨fun h => fun hc => octahedron_six_not_sizeerr hc h,
      octahedron_fst_not_six⟩,
    ⟨fun h => fun hc => cubic_eight_not_sizeerr hc h, cubic_fst_not_eight⟩,
    fun hlen => ⟨?_, rfl⟩, fun hlen => ⟨?_, rfl⟩⟩
  · rcases coords with _ | ⟨a, _ | ⟨b, _ | ⟨c, _ | ⟨d, _ | ⟨e, t⟩⟩⟩⟩⟩ <;>
      simp at hc
    rw [tetrahedron_four] at h
    exact Except.noConfusion h
  · rw [octahedron_fst_not_six hlen, octahedron_fst_not_six hlen]
  · rw [cubic_fst_not_eight hlen, cubic_fst_not_eight hlen]

/-- Witness for C3: wrong-sized inputs produce the size errors. -/
theorem claim3_cluster_size_witness :
    tetrahedron [] = .error (.valueError tetraMsg) ∧
    (octahedron OctS [0] []).1 = .error (.valueError octMsg) ∧
    (cubic CubeS [0] []).1 = .error (.valueError cubicMsg) :=
  ⟨(claim3_cluster_size [] OctS OctS [0] [] [0] []).1.mpr (by simp),
   (claim3_cluster_size [] OctS OctS [0] [] [0] []).2.1.mpr (by simp),
   (claim3_cluster_size [] CubeS CubeS [0] [] [0] []).2.2.1.mpr (by simp)⟩

/-- C4 counterexample: the triangulation-map entry -1 lies outside the valid
position range 0..5, yet `octahedron` succeeds (Python's negative indexing
wraps it to position 5) instead of failing. -/
theorem claim4_counterexample :
    (octahedron OctS [0, 1, 2, 3, 4, 5] [[-1, 0, 1]]).1 = .ok 0 := by
  simp [octahedron, OctS, resolveSites, sumTriangles, pyGet,
    calc_center_of_gravity, tetrahedron, bind, Except.bind, Except.pure, pure,
    det3, mkV3]

/-- C4 amended: with resolvable sites of the right count and 3-entry triples,
a triangulation-map entry outside -6..5 (octahedron) resp. -8..7 (cubic)
makes the operation fail with an `IndexError`; entries in -6..-1 resp. -8..-1
instead wrap around from the end of the vertex list. -/
theorem claim4_amended (s : Structure) (sites : List Int)
    (mp : List (List Int)) (cs : List V3) (sitesc : List Int)
    (mpc : List (List Int)) (csc : List V3) :
    (sites.length = 6 → resolveSites s.cart_coords sites = .ok cs →
      (∀ t ∈ mp, t.length = 3) →
      (∃ t ∈ mp, ∃ i ∈ t, i < -6 ∨ 5 < i) →
      (octahedron s sites mp).1 = .error .indexError) ∧
    (sitesc.length = 8 → resolveSites s.cart_coords sitesc = .ok csc →
      (∀ t ∈ mpc, t.length = 3) →
      (∃ t ∈ mpc, ∃ i ∈ t, i < -8 ∨ 7 < i) →
      (cubic s sitesc mpc).1 = .error .indexError) := by
  constructor
  · intro hlen hres hall hbad
    have hcl : cs.length = 6 := (resolveSites_ok_length hres).trans hlen
    rw [octahedron_ok_of_six mp hlen hres]
    apply sumTriangles_bad_triangle hall
    obtain ⟨t, ht, i, hi, hout⟩ := hbad
    exact ⟨t, ht, i, hi, by rw [hcl]; omega⟩
  · intro hlen hres hall hbad
    have hcl : csc.length = 8 := (resolveSites_ok_length hres).trans hlen
    rw [cubic_ok_of_eight mpc hlen hres]
    apply sumTriangles_bad_triangle hall
    obtain ⟨t, ht, i, hi, hout⟩ := hbad
    exact ⟨t, ht, i, hi, by rw [hcl]; omega⟩

/-- Witness for the amended C4: entry 7 in an octahedron map and entry 9 in a
cube map produce the index error. -/
theorem claim4_amended_witness :
    (octahedron OctS [0, 1, 2, 3, 4, 5] [[0, 1, 7]]).1 = .error .indexError ∧
    (cubic CubeS [0, 1, 2, 3, 4, 5, 6, 7] [[0, 1, 9]]).1 =
      .error .indexError :=
  ⟨(claim4_amended OctS [0, 1, 2, 3, 4, 5] [[0, 1, 7]] (List.ofFn OctP)
      [0, 1, 2, 3, 4, 5, 6, 7] [[0, 1, 9]] (List.ofFn CubeP)).1 rfl
      (by simp [OctS, OctP, resolveSites, pyGet, bind, Except.bind, pure,
        Except.pure, List.ofFn_succ, mkV3])
      (by simp)
      ⟨[0, 1, 7], by simp, 7, by simp, by norm_num⟩,
   (claim4_amended CubeS [0, 1, 2, 3, 4, 5] [[0, 1, 7]] (List.ofFn OctP)
      [0, 1, 2, 3, 4, 5, 6, 7] [[0, 1, 9]] (List.ofFn CubeP)).2 rfl
      (by simp [CubeS, CubeP, resolveSites, pyGet, bind, Except.bind, pure,
        Except.pure, List.ofFn_succ, mkV3])
      (by simp)
      ⟨[0, 1, 9], by simp, 9, by simp, by norm_num⟩⟩

/-- C9 code bug, evaluated at the failing input: one site with fractional
coordinates (1.7, 0, 0) is wrapped to (0.7, 0, 0) by the single-step shift of
`_trans_periodic_coords`, and 0.7 does not lie in the range (-0.5, 0.5]. -/
theorem claim9_wrap_bug :
    (trans_periodic_coords S9 [0]).map
        (fun st => st.sites.map (fun f => f 0)) = .ok [7/10] ∧
    ¬ ((7/10 : ℚ) ≤ 1/2) := by
  constructor
  · simp [trans_periodic_coords, S9, pyGet, pySet, wrapComp, mkV3, bind,
      Except.bind, pure, Except.pure, Except.map]
    norm_num
  · norm_num
